import Mathlib

/-!
Verification of the orchestration and result-processing engine of the
Movie_Book_CrewAI repository, shallowly embedded in Lean 4.

The embedding follows src/crew/orchestrator.py (class MediaRecommendationCrew)
and src/cache_manager.py (class PersistentCacheManager).  Python dictionaries
are modelled as association lists from field names to values; Python numbers
(int and float alike) are modelled as rationals; external effects (the LLM
crew kickoff and the HTTP rating fetchers) are parameters of the embedded
functions.
-/

namespace MediaCrew

/-- Model of a Python value as it flows through the orchestrator: strings,
numbers (int and float are merged into one rational-valued constructor),
booleans, None, lists and dicts. -/
inductive PyVal where
  | vstr (s : String)
  | vnum (q : ℚ)
  | vbool (b : Bool)
  | vnull
  | vlist (xs : List PyVal)
  | vdict (fs : List (String × PyVal))
deriving Inhabited

/-- A recommendation record: the field map of one Python dict. -/
abbrev Rec := List (String × PyVal)

/-- Lookup of a key in a Python dict, modelled on the association list
(first occurrence wins; a well-formed dict has no duplicate keys). -/
def alget {α : Type} : List (String × α) → String → Option α
  | [], _ => none
  | (k', v) :: rest, k => if k' = k then some v else alget rest k

/-- Python dict assignment d[k] = v: replace the first binding of the key,
or append a new binding at the end. -/
def alset {α : Type} : List (String × α) → String → α → List (String × α)
  | [], k, v => [(k, v)]
  | (k', v') :: rest, k, v =>
      if k' = k then (k, v) :: rest else (k', v') :: alset rest k v

/-- Python del d[k]: remove the first binding of the key. -/
def alerase {α : Type} : List (String × α) → String → List (String × α)
  | [], _ => []
  | (k', v') :: rest, k => if k' = k then rest else (k', v') :: alerase rest k

/-- Python d.setdefault(k, v): append the binding at the end only when the
key is absent. -/
def alsetdefault {α : Type} (l : List (String × α)) (k : String) (v : α) :
    List (String × α) :=
  if (alget l k).isSome then l else l ++ [(k, v)]

theorem alget_alset_self {α : Type} (l : List (String × α)) (k : String) (v : α) :
    alget (alset l k v) k = some v := by
  induction l with
  | nil => simp [alset, alget]
  | cons hd tl ih =>
      obtain ⟨k', v'⟩ := hd
      by_cases h : k' = k
      · simp [alset, alget, h]
      · simp [alset, alget, h, ih]

theorem alget_alset_ne {α : Type} (l : List (String × α)) {k k' : String} (v : α)
    (h : k' ≠ k) : alget (alset l k v) k' = alget l k' := by
  have hk : ¬ k = k' := fun hh => h hh.symm
  induction l with
  | nil => simp [alset, alget, hk]
  | cons hd tl ih =>
      obtain ⟨k0, v0⟩ := hd
      by_cases h0 : k0 = k
      · subst h0
        simp [alset, alget, hk]
      · simp [alset, alget, h0, ih]

theorem alset_eq_of_alget {α : Type} {l : List (String × α)} {k : String} {v : α}
    (h : alget l k = some v) : alset l k v = l := by
  induction l with
  | nil => simp [alget] at h
  | cons hd tl ih =>
      obtain ⟨k', v'⟩ := hd
      by_cases h0 : k' = k
      · subst h0
        simp [alget] at h
        simp [alset, h]
      · simp [alget, h0] at h
        simp [alset, h0, ih h]

theorem alget_append_left {α : Type} {l : List (String × α)} {k : String} {v : α}
    (h : alget l k = some v) (l2 : List (String × α)) :
    alget (l ++ l2) k = some v := by
  induction l with
  | nil => simp [alget] at h
  | cons hd tl ih =>
      obtain ⟨k', v'⟩ := hd
      by_cases h0 : k' = k
      · simp [alget, h0] at h ⊢
        exact h
      · simp [alget, h0] at h ⊢
        exact ih h

theorem alget_append_single_ne {α : Type} (l : List (String × α)) {k k' : String}
    (v : α) (h : k' ≠ k) : alget (l ++ [(k, v)]) k' = alget l k' := by
  have hk : ¬ k = k' := fun hh => h hh.symm
  induction l with
  | nil => simp [alget, hk]
  | cons hd tl ih =>
      obtain ⟨k0, v0⟩ := hd
      simp [alget, ih]

theorem alget_append_single_self {α : Type} (l : List (String × α)) (k : String)
    (v : α) (h : alget l k = none) : alget (l ++ [(k, v)]) k = some v := by
  induction l with
  | nil => simp [alget]
  | cons hd tl ih =>
      obtain ⟨k0, v0⟩ := hd
      by_cases h0 : k0 = k
      · simp [alget, h0] at h
      · simp [alget, h0] at h ⊢
        exact ih h

theorem alget_alsetdefault_ne {α : Type} (l : List (String × α)) {k k' : String}
    (v : α) (h : k' ≠ k) : alget (alsetdefault l k v) k' = alget l k' := by
  unfold alsetdefault
  split
  · rfl
  · exact alget_append_single_ne l v h

theorem alsetdefault_of_isSome {α : Type} {l : List (String × α)} {k : String}
    (v : α) (h : (alget l k).isSome) : alsetdefault l k v = l := by
  unfold alsetdefault
  simp [h]

theorem isSome_alget_alsetdefault_self {α : Type} (l : List (String × α))
    (k : String) (v : α) : (alget (alsetdefault l k v) k).isSome := by
  unfold alsetdefault
  split
  · assumption
  · rename_i h
    rw [alget_append_single_self l k v (Option.not_isSome_iff_eq_none.mp h)]
    rfl

theorem isSome_alget_alsetdefault {α : Type} {l : List (String × α)} {k : String}
    (k' : String) (v : α) (h : (alget l k).isSome) :
    (alget (alsetdefault l k' v) k).isSome := by
  by_cases he : k = k'
  · subst he
    exact isSome_alget_alsetdefault_self l k v
  · rw [alget_alsetdefault_ne l v he]
    exact h

theorem isSome_alget_alset {α : Type} {l : List (String × α)} {k : String}
    (k' : String) (v : α) (h : (alget l k).isSome) :
    (alget (alset l k' v) k).isSome := by
  by_cases he : k = k'
  · subst he
    simp [alget_alset_self]
  · rw [alget_alset_ne l v he]
    exact h

theorem mem_keys_of_alget {α : Type} {l : List (String × α)} {k : String} {v : α}
    (h : alget l k = some v) : k ∈ l.map Prod.fst := by
  induction l with
  | nil => simp [alget] at h
  | cons hd tl ih =>
      obtain ⟨k0, v0⟩ := hd
      by_cases h0 : k0 = k
      · simp [h0]
      · simp [alget, h0] at h
        simp [ih h]

theorem alget_alerase_of_nodup {α : Type} {l : List (String × α)} {k : String}
    (hnd : (l.map Prod.fst).Nodup) (h : (alget l k).isSome) :
    alget (alerase l k) k = none := by
  induction l with
  | nil => simp [alget] at h
  | cons hd tl ih =>
      obtain ⟨k', v'⟩ := hd
      simp only [List.map_cons, List.nodup_cons] at hnd
      by_cases h0 : k' = k
      · subst h0
        have htl : alget tl k' = none := by
          cases hv : alget tl k' with
          | none => rfl
          | some w => exact absurd (mem_keys_of_alget hv) hnd.1
        simp [alerase, htl]
      · have h2 : (alget tl k).isSome := by simpa [alget, h0] using h
        simp [alerase, h0, alget, ih hnd.2 h2]

theorem length_alerase_of_isSome {α : Type} {l : List (String × α)} {k : String}
    (h : (alget l k).isSome) : (alerase l k).length + 1 = l.length := by
  induction l with
  | nil => simp [alget] at h
  | cons hd tl ih =>
      obtain ⟨k', v'⟩ := hd
      by_cases h0 : k' = k
      · simp [alerase, h0]
      · simp [alget, h0] at h
        simp [alerase, h0, ih h]

/-! ## String helpers modelling the Python primitives used by the orchestrator -/

/-- The whitespace class of Python: str.strip with no argument and the regex
class backslash-s both accept exactly these six ASCII characters (the inputs
of this program are ASCII). -/
def pyIsSpace (c : Char) : Bool :=
  c = ' ' || c = '\t' || c = '\n' || c = '\r' || c = '\x0b' || c = '\x0c'

/-- Python str.strip(): drop whitespace from both ends. -/
def pyStrip (s : String) : String :=
  String.mk (((s.toList.dropWhile pyIsSpace).reverse.dropWhile pyIsSpace).reverse)

/-- Python str.lower() on ASCII input. -/
def pyLower (s : String) : String :=
  String.mk (s.toList.map Char.toLower)

/-- Substring containment on character lists, modelling the Python infix
operator in on strings (the empty pattern is contained in everything). -/
def listHasInfix : List Char → List Char → Bool
  | hay, pat =>
    pat.isPrefixOf hay ||
      match hay with
      | [] => false
      | _ :: t => listHasInfix t pat

/-- Python pat in s (substring containment). -/
def strContains (hay pat : String) : Bool :=
  listHasInfix hay.toList pat.toList

/-- Python s.split(c)[0]: the prefix of s before the first occurrence of the
character c (the whole of s when c does not occur). -/
def beforeChar (s : String) (c : Char) : String :=
  String.mk (s.toList.takeWhile (fun d => d ≠ c))

/-- Python s.split(c, 1)[1]: everything after the first occurrence of the
character c (used only when c occurs in s). -/
def afterChar (s : String) (c : Char) : String :=
  String.mk ((s.toList.dropWhile (fun d => d ≠ c)).drop 1)

/-- Digit run to a natural number. -/
def digitsToNat (ds : List Char) : ℕ :=
  ds.foldl (fun n c => 10 * n + (c.toNat - 48)) 0

/-- Model of the Python float(string) conversion, on finite decimal literals:
optional surrounding whitespace, an optional sign, an integer part and/or a
fractional part (at least one digit overall), and an optional decimal
exponent.  Returns none where float() raises ValueError.  The inf/nan/inf
spellings and underscore digit separators accepted by Python are outside the
model; no theorem depends on them. -/
def pyFloat? (s : String) : Option ℚ :=
  let cs := (s.toList.dropWhile pyIsSpace).reverse.dropWhile pyIsSpace |>.reverse
  let (sign, cs) : ℚ × List Char :=
    match cs with
    | '-' :: t => (-1, t)
    | '+' :: t => (1, t)
    | _ => (1, cs)
  let intPart := cs.takeWhile Char.isDigit
  let rest := cs.dropWhile Char.isDigit
  let (fracPart, rest) : List Char × List Char :=
    match rest with
    | '.' :: t => (t.takeWhile Char.isDigit, t.dropWhile Char.isDigit)
    | _ => ([], rest)
  if intPart.isEmpty && fracPart.isEmpty then none
  else
    let mant : ℚ := (digitsToNat intPart : ℚ) +
      (digitsToNat fracPart : ℚ) / ((10 : ℚ) ^ fracPart.length)
    match rest with
    | [] => some (sign * mant)
    | e :: t =>
        if e = 'e' || e = 'E' then
          let (esign, t) : ℤ × List Char :=
            match t with
            | '-' :: t2 => (-1, t2)
            | '+' :: t2 => (1, t2)
            | _ => (1, t)
          let eds := t.takeWhile Char.isDigit
          if eds.isEmpty || !(t.dropWhile Char.isDigit).isEmpty then none
          else some (sign * mant * (10 : ℚ) ^ (esign * (digitsToNat eds : ℤ)))
        else none

/-- Rounding to one decimal place: the model of the Python round(x, 1) used
on ratings.  Python rounds binary floats half to even; the model rounds half
up; no theorem depends on a half-way case, only on the fact that a value
already holding one decimal place is left unchanged. -/
def round1 (q : ℚ) : ℚ := ((⌊q * 10 + 1 / 2⌋ : ℤ) : ℚ) / 10

theorem round1_idem (q : ℚ) : round1 (round1 q) = round1 q := by
  unfold round1
  set m : ℤ := ⌊q * 10 + 1 / 2⌋ with hm
  have h10 : ((m : ℚ) / 10) * 10 = (m : ℚ) := by
    field_simp
  rw [h10]
  have : ⌊(m : ℚ) + 1 / 2⌋ = m := by
    rw [Int.floor_int_add]
    norm_num
  rw [this]

/-! ## The Python str() conversion used on the year field -/

/-- Decimal-style rendering of a rational; for integers this agrees with the
Python str() of an int.  Non-integral rationals are rendered as a fraction
rather than in the float notation of Python; no theorem depends on that
rendering. -/
def ratRepr (q : ℚ) : String :=
  if q.den = 1 then toString q.num else toString q.num ++ "/" ++ toString q.den

/-- Model of Python str(v) for the value shapes that can reach the year
field.  The container renderings are abbreviated placeholders; no theorem
depends on them. -/
def pyStr : PyVal → String
  | .vstr s => s
  | .vnum q => ratRepr q
  | .vbool b => if b then "True" else "False"
  | .vnull => "None"
  | .vlist _ => "[...]"
  | .vdict _ => "\x7b...\x7d"

/-- Python truthiness of a value, as used by item.get(title) checks. -/
def pyTruthy : PyVal → Bool
  | .vstr s => !(s = "")
  | .vnum q => !(q = 0)
  | .vbool b => b
  | .vnull => false
  | .vlist xs => !xs.isEmpty
  | .vdict fs => !fs.isEmpty

/-! ## Recommendation Post-Processor
Embeds MediaRecommendationCrew._post_process_recommendations and
MediaRecommendationCrew._normalize_rating (src/crew/orchestrator.py). -/

/-- The seven setdefault calls at the top of _post_process_recommendations,
in source order. -/
def apply_defaults (r : Rec) : Rec :=
  alsetdefault (alsetdefault (alsetdefault (alsetdefault (alsetdefault
    (alsetdefault (alsetdefault r
      "rating" (.vstr "N/A"))
      "similar_titles" (.vlist []))
      "description" (.vstr "No description available"))
      "why_recommended" (.vstr "Matches your preferences"))
      "image_url" .vnull)
      "trailer_url" .vnull)
      "type" (.vstr "unknown")

/-- The year step of _post_process_recommendations: when the year field is
present, replace it by str(year).split(the dash)[0]. -/
def fix_year (r : Rec) : Rec :=
  match alget r "year" with
  | some v => alset r "year" (.vstr (beforeChar (pyStr v) '-'))
  | none => r

/-- Model of _normalize_rating: a numeric rating (Python counts bool as int) is
rounded to one decimal; a string rating is parsed (taking the part before a
slash when one occurs), any parse failure collapsing to the sentinel; other
value shapes are left untouched (the source has no else branch). -/
def normalize_rating (r : Rec) : Rec :=
  match alget r "rating" with
  | some (.vnum q) => alset r "rating" (.vnum (round1 q))
  | some (.vbool b) => alset r "rating" (.vnum (round1 (if b then 1 else 0)))
  | some (.vstr s) =>
      if strContains s "/" then
        match pyFloat? (pyStrip (beforeChar s '/')) with
        | some q => alset r "rating" (.vnum (round1 q))
        | none => alset r "rating" (.vstr "N/A")
      else
        match pyFloat? s with
        | some q => alset r "rating" (.vnum (round1 q))
        | none => alset r "rating" (.vstr "N/A")
  | _ => r

/-- The per-record body of _post_process_recommendations in source order:
defaults, then the year truncation, then rating normalization. -/
def post_process_rec (r : Rec) : Rec :=
  normalize_rating (fix_year (apply_defaults r))

/-- Model of _post_process_recommendations: the loop mutates each record in place and
returns the same list, modelled as a map. -/
def post_process (rs : List Rec) : List Rec :=
  rs.map post_process_rec

/-- A rating value in the normalized form the Post-Processor is meant to
produce: a number rounded to one decimal, or the sentinel string. -/
def normalizedRating (v : PyVal) : Prop :=
  (∃ q, v = .vnum (round1 q)) ∨ v = .vstr "N/A"

theorem alget_alsetdefault_self {α : Type} (l : List (String × α)) (k : String)
    (v : α) : alget (alsetdefault l k v) k = some ((alget l k).getD v) := by
  unfold alsetdefault
  cases h : alget l k with
  | some w => simp [h]
  | none => simp [h, alget_append_single_self l k v h]

theorem alget_apply_defaults_other (r : Rec) {k : String}
    (h1 : k ≠ "rating") (h2 : k ≠ "similar_titles") (h3 : k ≠ "description")
    (h4 : k ≠ "why_recommended") (h5 : k ≠ "image_url") (h6 : k ≠ "trailer_url")
    (h7 : k ≠ "type") : alget (apply_defaults r) k = alget r k := by
  unfold apply_defaults
  rw [alget_alsetdefault_ne _ _ h7, alget_alsetdefault_ne _ _ h6,
      alget_alsetdefault_ne _ _ h5, alget_alsetdefault_ne _ _ h4,
      alget_alsetdefault_ne _ _ h3, alget_alsetdefault_ne _ _ h2,
      alget_alsetdefault_ne _ _ h1]

theorem alget_apply_defaults_rating (r : Rec) :
    alget (apply_defaults r) "rating" = some ((alget r "rating").getD (.vstr "N/A")) := by
  unfold apply_defaults
  rw [alget_alsetdefault_ne _ _ (by decide : ("rating" : String) ≠ "type"),
      alget_alsetdefault_ne _ _ (by decide : ("rating" : String) ≠ "trailer_url"),
      alget_alsetdefault_ne _ _ (by decide : ("rating" : String) ≠ "image_url"),
      alget_alsetdefault_ne _ _ (by decide : ("rating" : String) ≠ "why_recommended"),
      alget_alsetdefault_ne _ _ (by decide : ("rating" : String) ≠ "description"),
      alget_alsetdefault_ne _ _ (by decide : ("rating" : String) ≠ "similar_titles"),
      alget_alsetdefault_self]

theorem alget_fix_year_ne (r : Rec) {k : String} (h : k ≠ "year") :
    alget (fix_year r) k = alget r k := by
  unfold fix_year
  cases h0 : alget r "year" with
  | none => rfl
  | some v => exact alget_alset_ne r _ h

theorem alget_fix_year_year (r : Rec) :
    alget (fix_year r) "year"
      = (alget r "year").map (fun v => .vstr (beforeChar (pyStr v) '-')) := by
  unfold fix_year
  cases h0 : alget r "year" with
  | none => simp [h0]
  | some v => simp [alget_alset_self]

theorem alget_normalize_ne (r : Rec) {k : String} (h : k ≠ "rating") :
    alget (normalize_rating r) k = alget r k := by
  unfold normalize_rating
  cases h0 : alget r "rating" with
  | none => rfl
  | some v =>
      cases v with
      | vnum q => exact alget_alset_ne r _ h
      | vbool b => exact alget_alset_ne r _ h
      | vstr s =>
          dsimp only
          split
          · cases pyFloat? (pyStrip (beforeChar s '/')) <;> exact alget_alset_ne r _ h
          · cases pyFloat? s <;> exact alget_alset_ne r _ h
      | vnull => rfl
      | vlist xs => rfl
      | vdict fs => rfl

theorem isSome_alget_fix_year (r : Rec) (k : String)
    (h : (alget r k).isSome) : (alget (fix_year r) k).isSome := by
  unfold fix_year
  cases h0 : alget r "year" with
  | none => exact h
  | some v => exact isSome_alget_alset _ _ h

theorem isSome_alget_normalize (r : Rec) (k : String)
    (h : (alget r k).isSome) : (alget (normalize_rating r) k).isSome := by
  unfold normalize_rating
  cases h0 : alget r "rating" with
  | none => exact h
  | some v =>
      cases v with
      | vnum q => exact isSome_alget_alset _ _ h
      | vbool b => exact isSome_alget_alset _ _ h
      | vstr s =>
          dsimp only
          split
          · cases pyFloat? (pyStrip (beforeChar s '/')) <;> exact isSome_alget_alset _ _ h
          · cases pyFloat? s <;> exact isSome_alget_alset _ _ h
      | vnull => exact h
      | vlist xs => exact h
      | vdict fs => exact h

theorem defaults_key_present (r : Rec) (k : String)
    (h : k = "rating" ∨ k = "similar_titles" ∨ k = "description" ∨
         k = "why_recommended" ∨ k = "image_url" ∨ k = "trailer_url" ∨ k = "type") :
    (alget (apply_defaults r) k).isSome := by
  unfold apply_defaults
  rcases h with h | h | h | h | h | h | h <;> subst h
  · apply isSome_alget_alsetdefault
    apply isSome_alget_alsetdefault
    apply isSome_alget_alsetdefault
    apply isSome_alget_alsetdefault
    apply isSome_alget_alsetdefault
    apply isSome_alget_alsetdefault
    exact isSome_alget_alsetdefault_self _ _ _
  · apply isSome_alget_alsetdefault
    apply isSome_alget_alsetdefault
    apply isSome_alget_alsetdefault
    apply isSome_alget_alsetdefault
    apply isSome_alget_alsetdefault
    exact isSome_alget_alsetdefault_self _ _ _
  · apply isSome_alget_alsetdefault
    apply isSome_alget_alsetdefault
    apply isSome_alget_alsetdefault
    apply isSome_alget_alsetdefault
    exact isSome_alget_alsetdefault_self _ _ _
  · apply isSome_alget_alsetdefault
    apply isSome_alget_alsetdefault
    apply isSome_alget_alsetdefault
    exact isSome_alget_alsetdefault_self _ _ _
  · apply isSome_alget_alsetdefault
    apply isSome_alget_alsetdefault
    exact isSome_alget_alsetdefault_self _ _ _
  · apply isSome_alget_alsetdefault
    exact isSome_alget_alsetdefault_self _ _ _
  · exact isSome_alget_alsetdefault_self _ _ _

theorem ppr_key_present (r : Rec) (k : String)
    (h : k = "rating" ∨ k = "similar_titles" ∨ k = "description" ∨
         k = "why_recommended" ∨ k = "image_url" ∨ k = "trailer_url" ∨ k = "type") :
    (alget (post_process_rec r) k).isSome := by
  unfold post_process_rec
  exact isSome_alget_normalize _ _ (isSome_alget_fix_year _ _ (defaults_key_present r k h))

theorem apply_defaults_noop (r : Rec)
    (g1 : (alget r "rating").isSome) (g2 : (alget r "similar_titles").isSome)
    (g3 : (alget r "description").isSome) (g4 : (alget r "why_recommended").isSome)
    (g5 : (alget r "image_url").isSome) (g6 : (alget r "trailer_url").isSome)
    (g7 : (alget r "type").isSome) : apply_defaults r = r := by
  unfold apply_defaults
  rw [alsetdefault_of_isSome _ g1, alsetdefault_of_isSome _ g2,
      alsetdefault_of_isSome _ g3, alsetdefault_of_isSome _ g4,
      alsetdefault_of_isSome _ g5, alsetdefault_of_isSome _ g6,
      alsetdefault_of_isSome _ g7]

theorem takeWhile_idem {p : Char → Bool} (l : List Char) :
    (l.takeWhile p).takeWhile p = l.takeWhile p := by
  induction l with
  | nil => rfl
  | cons c t ih =>
      by_cases h : p c <;> simp [List.takeWhile_cons, h, ih]

theorem beforeChar_beforeChar (s : String) (c : Char) :
    beforeChar (beforeChar s c) c = beforeChar s c := by
  unfold beforeChar
  have : (String.mk (s.toList.takeWhile (fun d => d ≠ c))).toList
      = s.toList.takeWhile (fun d => d ≠ c) := rfl
  rw [this, takeWhile_idem]

theorem rating_after_ppr (r : Rec) :
    alget (post_process_rec r) "rating"
      = some (match (alget r "rating").getD (.vstr "N/A") with
          | .vnum q => .vnum (round1 q)
          | .vbool b => .vnum (round1 (if b then 1 else 0))
          | .vstr s =>
              if strContains s "/" then
                match pyFloat? (pyStrip (beforeChar s '/')) with
                | some q => .vnum (round1 q)
                | none => .vstr "N/A"
              else
                match pyFloat? s with
                | some q => .vnum (round1 q)
                | none => .vstr "N/A"
          | v => v) := by
  unfold post_process_rec
  have hd : alget (fix_year (apply_defaults r)) "rating"
      = some ((alget r "rating").getD (.vstr "N/A")) := by
    rw [alget_fix_year_ne _ (by decide), alget_apply_defaults_rating]
  unfold normalize_rating
  rw [hd]
  cases hv : (alget r "rating").getD (.vstr "N/A") with
  | vnum q => simp [alget_alset_self]
  | vbool b => simp [alget_alset_self]
  | vstr s =>
      dsimp only
      split
      · cases pyFloat? (pyStrip (beforeChar s '/')) <;> simp [alget_alset_self]
      · cases pyFloat? s <;> simp [alget_alset_self]
  | vnull => dsimp only; rw [hd, hv]
  | vlist xs => dsimp only; rw [hd, hv]
  | vdict fs => dsimp only; rw [hd, hv]

theorem post_process_rec_rating_shape (r : Rec) :
    ∃ v, alget (post_process_rec r) "rating" = some v ∧
      (normalizedRating v ∨ v = .vnull ∨ (∃ xs, v = .vlist xs) ∨ (∃ fs, v = .vdict fs)) := by
  rw [rating_after_ppr]
  refine ⟨_, rfl, ?_⟩
  cases (alget r "rating").getD (.vstr "N/A") with
  | vnum q => exact Or.inl (Or.inl ⟨q, rfl⟩)
  | vbool b => exact Or.inl (Or.inl ⟨_, rfl⟩)
  | vstr s =>
      dsimp only
      split
      · cases pyFloat? (pyStrip (beforeChar s '/')) with
        | none => exact Or.inl (Or.inr rfl)
        | some q => exact Or.inl (Or.inl ⟨q, rfl⟩)
      · cases pyFloat? s with
        | none => exact Or.inl (Or.inr rfl)
        | some q => exact Or.inl (Or.inl ⟨q, rfl⟩)
  | vnull => exact Or.inr (Or.inl rfl)
  | vlist xs => exact Or.inr (Or.inr (Or.inl ⟨xs, rfl⟩))
  | vdict fs => exact Or.inr (Or.inr (Or.inr ⟨fs, rfl⟩))

theorem ratingNormalized_post_process_rec (r : Rec)
    (h : alget r "rating" = none ∨ ∃ s, alget r "rating" = some (.vstr s)) :
    ∃ v, alget (post_process_rec r) "rating" = some v ∧ normalizedRating v := by
  rw [rating_after_ppr]
  refine ⟨_, rfl, ?_⟩
  have hs : ∃ s, (alget r "rating").getD (.vstr "N/A") = .vstr s := by
    rcases h with h | ⟨s, h⟩
    · exact ⟨"N/A", by rw [h]; rfl⟩
    · exact ⟨s, by rw [h]; rfl⟩
  obtain ⟨s, hs⟩ := hs
  rw [hs]
  dsimp only
  split
  · cases pyFloat? (pyStrip (beforeChar s '/')) with
    | none => exact Or.inr rfl
    | some q => exact Or.inl ⟨q, rfl⟩
  · cases pyFloat? s with
    | none => exact Or.inr rfl
    | some q => exact Or.inl ⟨q, rfl⟩

theorem fix_year_ppr (r : Rec) : fix_year (post_process_rec r) = post_process_rec r := by
  have hy : alget (post_process_rec r) "year"
      = (alget r "year").map (fun v => .vstr (beforeChar (pyStr v) '-')) := by
    unfold post_process_rec
    rw [alget_normalize_ne _ (by decide), alget_fix_year_year,
        alget_apply_defaults_other r (by decide) (by decide) (by decide)
          (by decide) (by decide) (by decide) (by decide)]
  unfold fix_year
  cases h0 : alget r "year" with
  | none =>
      have hy2 : alget (post_process_rec r) "year" = none := by
        rw [hy, h0]; rfl
      rw [hy2]
  | some v =>
      have hy2 : alget (post_process_rec r) "year"
          = some (.vstr (beforeChar (pyStr v) '-')) := by
        rw [hy, h0]; rfl
      rw [hy2]
      dsimp only
      have hb : beforeChar (pyStr (.vstr (beforeChar (pyStr v) '-'))) '-'
          = beforeChar (pyStr v) '-' := by
        show beforeChar (beforeChar (pyStr v) '-') '-' = beforeChar (pyStr v) '-'
        exact beforeChar_beforeChar _ _
      rw [hb]
      exact alset_eq_of_alget hy2

theorem normalize_ppr (r : Rec) :
    normalize_rating (post_process_rec r) = post_process_rec r := by
  obtain ⟨v, hv, hcase⟩ := post_process_rec_rating_shape r
  unfold normalize_rating
  rw [hv]
  rcases hcase with (⟨q, rfl⟩ | rfl) | rfl | ⟨xs, rfl⟩ | ⟨fs, rfl⟩
  · show alset (post_process_rec r) "rating" (.vnum (round1 (round1 q)))
        = post_process_rec r
    rw [round1_idem]
    exact alset_eq_of_alget hv
  · show alset (post_process_rec r) "rating" (.vstr "N/A") = post_process_rec r
    exact alset_eq_of_alget hv
  · rfl
  · rfl
  · rfl

theorem post_process_rec_idem (r : Rec) :
    post_process_rec (post_process_rec r) = post_process_rec r := by
  show normalize_rating (fix_year (apply_defaults (post_process_rec r)))
      = post_process_rec r
  rw [apply_defaults_noop _
        (ppr_key_present r _ (by tauto)) (ppr_key_present r _ (by tauto))
        (ppr_key_present r _ (by tauto)) (ppr_key_present r _ (by tauto))
        (ppr_key_present r _ (by tauto)) (ppr_key_present r _ (by tauto))
        (ppr_key_present r _ (by tauto)),
      fix_year_ppr, normalize_ppr]

/-! ## Result Parser, stage 2: structured-text fallback
Embeds _parse_structured_text, _is_new_recommendation, _extract_field and
_is_valid_recommendation (src/crew/orchestrator.py). -/

/-- Model of _is_valid_recommendation: bool(rec.get(title)). -/
def is_valid_recommendation (r : Rec) : Bool :=
  match alget r "title" with
  | some v => pyTruthy v
  | none => false

/-- The new-record trigger tokens of _is_new_recommendation, including the
ordinal of the next record. -/
def new_rec_indicators (count : ℕ) : List String :=
  ["title:", "movie:", "book:", "tv:", "recommendation", "###", "---",
   toString (count + 1) ++ "."]

/-- Model of _is_new_recommendation: any indicator occurs in the lowered line. -/
def is_new_recommendation (line : String) (count : ℕ) : Bool :=
  (new_rec_indicators count).any (fun ind => strContains (pyLower line) ind)

/-- The field-name table of _extract_field, in source order. -/
def field_patterns : List (String × List String) :=
  [("title", ["title:", "movie:", "book:", "tv:", "show:"]),
   ("year", ["year:", "released:", "published:", "aired:"]),
   ("genre", ["genre:", "category:"]),
   ("rating", ["rating:", "score:"]),
   ("description", ["description:", "summary:", "plot:"]),
   ("why_recommended", ["why:", "recommended because:", "matches because:"]),
   ("type", ["type:"]),
   ("image_url", ["image:", "cover:", "poster:"]),
   ("trailer_url", ["trailer:", "video:"]),
   ("preview_url", ["preview:", "sample:", "google books:"])]

/-- Model of _extract_field: the first field whose pattern occurs in the lowered line
receives the stripped text after the first colon of the original line (the
whole line when it has no colon). -/
def extract_field (line : String) (r : Rec) : Rec :=
  match field_patterns.find? (fun fp => fp.2.any (fun p => strContains (pyLower line) p)) with
  | some fp =>
      let value := if strContains line ":" then pyStrip (afterChar line ':') else line
      alset r fp.1 (.vstr value)
  | none => r

/-- The line loop of _parse_structured_text: acc is the list built so far,
cur the record under construction.  A line is stripped and skipped when
empty; a new-record trigger flushes cur when it is a valid record; every
non-empty line is then fed to the field extractor. -/
def scan_lines : List String → List Rec → Rec → List Rec
  | [], acc, cur =>
      if !cur.isEmpty && is_valid_recommendation cur then acc ++ [cur] else acc
  | line :: rest, acc, cur =>
      if pyStrip line = "" then scan_lines rest acc cur
      else if is_new_recommendation (pyStrip line) acc.length && !cur.isEmpty
              && is_valid_recommendation cur then
        scan_lines rest (acc ++ [cur]) (extract_field (pyStrip line) [])
      else
        scan_lines rest acc (extract_field (pyStrip line) cur)

/-- Python text.split on the newline character: consecutive separators give
empty fields and the empty text gives one empty field. -/
def splitNewlines : List Char → List (List Char)
  | [] => [[]]
  | c :: rest =>
      if c = '\n' then [] :: splitNewlines rest
      else
        match splitNewlines rest with
        | h :: t => (c :: h) :: t
        | [] => [[c]]

def pySplitLines (s : String) : List String :=
  (splitNewlines s.toList).map String.mk

/-- Model of _parse_structured_text: line-scan the text, then run the Post-Processor
over the collected records. -/
def parse_structured_text (s : String) : List Rec :=
  post_process (scan_lines (pySplitLines s) [] [])

/-! ## Result Parser, stage 1: JSON extraction
Embeds _extract_json_from_text, _parse_json_safely and the json.loads call
(src/crew/orchestrator.py). -/

/-- JSON whitespace. -/
def jsonWs (c : Char) : Bool := c = ' ' || c = '\t' || c = '\n' || c = '\r'

/-- Single-character JSON string escapes.  The unicode escape form is outside
the model; no theorem depends on it. -/
def jsonEscape? (c : Char) : Option Char :=
  if c = '"' then some '"'
  else if c = '\\' then some '\\'
  else if c = '/' then some '/'
  else if c = 'b' then some '\x08'
  else if c = 'f' then some '\x0c'
  else if c = 'n' then some '\n'
  else if c = 'r' then some '\r'
  else if c = 't' then some '\t'
  else none

/-- JSON string body after the opening quote: returns the decoded characters
and the remainder after the closing quote. -/
def parseJStringAux : List Char → Option (List Char × List Char)
  | [] => none
  | '"' :: rest => some ([], rest)
  | '\\' :: c :: rest =>
      match jsonEscape? c with
      | some d => (parseJStringAux rest).map (fun p => (d :: p.1, p.2))
      | none => none
  | ['\\'] => none
  | c :: rest => (parseJStringAux rest).map (fun p => (c :: p.1, p.2))

/-- Exponent suffix of a JSON numeral, applied to the mantissa. -/
def parseJNumberExp (m : ℚ) (t : List Char) : Option (ℚ × List Char) :=
  let (es, t2) : ℤ × List Char :=
    match t with
    | '-' :: t3 => (-1, t3)
    | '+' :: t3 => (1, t3)
    | _ => (1, t)
  let eds := t2.takeWhile Char.isDigit
  if eds.isEmpty then none
  else some (m * (10 : ℚ) ^ (es * (digitsToNat eds : ℤ)), t2.dropWhile Char.isDigit)

/-- JSON numeral: sign, integer digits, optional fraction, optional decimal
exponent.  Accepts a small superset of the JSON grammar (leading zeros); no
theorem depends on the difference. -/
def parseJNumber (cs : List Char) : Option (ℚ × List Char) :=
  let (sign, cs1) : ℚ × List Char :=
    match cs with
    | '-' :: t => (-1, t)
    | _ => (1, cs)
  let ids := cs1.takeWhile Char.isDigit
  let rest1 := cs1.dropWhile Char.isDigit
  if ids.isEmpty then none
  else
    let fr : Option (List Char × List Char) :=
      match rest1 with
      | '.' :: t =>
          let fds := t.takeWhile Char.isDigit
          if fds.isEmpty then none else some (fds, t.dropWhile Char.isDigit)
      | _ => some ([], rest1)
    match fr with
    | none => none
    | some (fds, rest2) =>
        let mant : ℚ := (digitsToNat ids : ℚ) +
          (digitsToNat fds : ℚ) / ((10 : ℚ) ^ fds.length)
        match rest2 with
        | 'e' :: t => parseJNumberExp (sign * mant) t
        | 'E' :: t => parseJNumberExp (sign * mant) t
        | _ => some (sign * mant, rest2)

/-- Parser modes: a JSON value, the items of an array after the opening
bracket, or the members of an object after the opening brace.  Array and
object results are delivered as vlist and vdict values. -/
inductive JMode where
  | value
  | arrItems
  | objItems

/-- Fuel-indexed recursive-descent JSON reader modelling json.loads. -/
def parseJ : ℕ → JMode → List Char → Option (PyVal × List Char)
  | 0, _, _ => none
  | fuel + 1, .value, cs =>
      match cs.dropWhile jsonWs with
      | [] => none
      | '"' :: rest =>
          (parseJStringAux rest).map (fun p => (.vstr (String.mk p.1), p.2))
      | '[' :: rest =>
          match rest.dropWhile jsonWs with
          | ']' :: r2 => some (.vlist [], r2)
          | _ => parseJ fuel .arrItems rest
      | '\x7b' :: rest =>
          match rest.dropWhile jsonWs with
          | '\x7d' :: r2 => some (.vdict [], r2)
          | _ => parseJ fuel .objItems rest
      | 't' :: 'r' :: 'u' :: 'e' :: rest => some (.vbool true, rest)
      | 'f' :: 'a' :: 'l' :: 's' :: 'e' :: rest => some (.vbool false, rest)
      | 'n' :: 'u' :: 'l' :: 'l' :: rest => some (.vnull, rest)
      | cs2 => (parseJNumber cs2).map (fun p => (.vnum p.1, p.2))
  | fuel + 1, .arrItems, cs =>
      match parseJ fuel .value cs with
      | some (v, rest) =>
          (match rest.dropWhile jsonWs with
            | ',' :: r2 =>
                match parseJ fuel .arrItems r2 with
                | some (.vlist vs, r3) => some (.vlist (v :: vs), r3)
                | _ => none
            | ']' :: r2 => some (.vlist [v], r2)
            | _ => none)
      | none => none
  | fuel + 1, .objItems, cs =>
      match cs.dropWhile jsonWs with
      | '"' :: rest =>
          (match parseJStringAux rest with
            | some (key, r2) =>
                (match r2.dropWhile jsonWs with
                  | ':' :: r3 =>
                      (match parseJ fuel .value r3 with
                        | some (v, r4) =>
                            (match r4.dropWhile jsonWs with
                              | ',' :: r5 =>
                                  match parseJ fuel .objItems r5 with
                                  | some (.vdict fs, r6) =>
                                      some (.vdict ((String.mk key, v) :: fs), r6)
                                  | _ => none
                              | '\x7d' :: r5 => some (.vdict [(String.mk key, v)], r5)
                              | _ => none)
                        | none => none)
                  | _ => none)
            | none => none)
      | _ => none

/-- Model of json.loads: parse one value and require only whitespace after
it. -/
def json_loads (s : String) : Option PyVal :=
  match parseJ (2 * s.length + 2) .value s.toList with
  | some (v, rest) => if (rest.dropWhile jsonWs).isEmpty then some v else none
  | none => none

/-- Characters other than the two braces (the negated class of the first
extraction pattern). -/
def notBrace (c : Char) : Bool := !(c = '\x7b' || c = '\x7d')

/-- Match of the first extraction pattern (tight array of one object: an
opening bracket, whitespace, an object with a brace-free body, whitespace, a
closing bracket) at this position. -/
def matchP1At (cs : List Char) : Option (List Char) :=
  match cs with
  | '[' :: r1 =>
      let w1 := r1.takeWhile pyIsSpace
      match r1.dropWhile pyIsSpace with
      | '\x7b' :: r3 =>
          let body := r3.takeWhile notBrace
          (match r3.dropWhile notBrace with
            | '\x7d' :: r5 =>
                let w2 := r5.takeWhile pyIsSpace
                (match r5.dropWhile pyIsSpace with
                  | ']' :: _ =>
                      some (('[' :: w1 ++ '\x7b' :: body) ++ ('\x7d' :: w2 ++ [']']))
                  | _ => none)
            | _ => none)
      | _ => none
  | _ => none

/-- Tail search of the second (lazy) extraction pattern: the shortest body
after the opening brace that is followed by a closing brace, whitespace and
a closing bracket.  Returns the body and that whitespace run. -/
def p2Close : List Char → Option (List Char × List Char)
  | [] => none
  | c :: rest =>
      if c = '\x7d' &&
          (match rest.dropWhile pyIsSpace with | ']' :: _ => true | _ => false) then
        some ([], rest.takeWhile pyIsSpace)
      else
        (p2Close rest).map (fun p => (c :: p.1, p.2))

/-- Match of the second extraction pattern (loose array of one object, with
a lazy any-content body) at this position. -/
def matchP2At (cs : List Char) : Option (List Char) :=
  match cs with
  | '[' :: r1 =>
      let w1 := r1.takeWhile pyIsSpace
      match r1.dropWhile pyIsSpace with
      | '\x7b' :: r3 =>
          (p2Close r3).map (fun p =>
            ('[' :: w1 ++ '\x7b' :: p.1) ++ ('\x7d' :: p.2 ++ [']']))
      | _ => none
  | _ => none

/-- Shortest run up to the first closing brace (for the lazy body of the
third extraction pattern); the brace itself is not included. -/
def p3Close : List Char → Option (List Char)
  | [] => none
  | c :: rest =>
      if c = '\x7d' then some [] else (p3Close rest).map (fun b => c :: b)

/-- Match of the third extraction pattern (an object whose first key is the
recommendations literal) at this position. -/
def matchP3At (cs : List Char) : Option (List Char) :=
  match cs with
  | '\x7b' :: r1 =>
      let w1 := r1.takeWhile pyIsSpace
      let r2 := r1.dropWhile pyIsSpace
      let lit := "\"recommendations\"".toList
      if lit.isPrefixOf r2 then
        (p3Close (r2.drop lit.length)).map (fun body =>
          '\x7b' :: (w1 ++ lit ++ body ++ ['\x7d']))
      else none
  | _ => none

/-- re.search position scan: try the pattern at each start position from the
left and take the first match. -/
def searchFirst (m : List Char → Option (List Char)) : List Char → Option (List Char)
  | [] => m []
  | cs@(_ :: rest) =>
      match m cs with
      | some r => some r
      | none => searchFirst m rest

/-- Model of _extract_json_from_text: the three regex shapes tried in source order,
first match wins. -/
def extract_json_from_text (s : String) : Option String :=
  match searchFirst matchP1At s.toList with
  | some m => some (String.mk m)
  | none =>
      match searchFirst matchP2At s.toList with
      | some m => some (String.mk m)
      | none => (searchFirst matchP3At s.toList).map String.mk

/-- The element filter of _parse_json_safely: keep dict items whose title is
truthy. -/
def keepItem (it : PyVal) : Bool :=
  match it with
  | .vdict fs =>
      match alget fs "title" with
      | some v => pyTruthy v
      | none => false
  | _ => false

/-- Model of _parse_json_safely: parse, keep only valid items of a list result, fail
on empty survivors or a non-list result. -/
def parse_json_safely (js : String) : Option (List PyVal) :=
  match json_loads js with
  | some (.vlist items) =>
      if (items.filter keepItem).isEmpty then none
      else some (items.filter keepItem)
  | _ => none

/-- The raw crew result handed to _parse_result: either already a Python
list, or any other value together with its str() rendering. -/
inductive CrewResult where
  | pyList (items : List PyVal)
  | text (s : String)

/-- Model of _parse_result: a list result is returned as is; otherwise a successful
JSON extraction is parsed and returned (even when the parse fails, stage 2
is not attempted); otherwise the structured-text stage runs and an empty
scan is reported as a parse failure. -/
def parse_result : CrewResult → Option (List PyVal)
  | .pyList items => some items
  | .text s =>
      match extract_json_from_text s with
      | some js => parse_json_safely js
      | none =>
          if (parse_structured_text s).isEmpty then none
          else some ((parse_structured_text s).map .vdict)

/-! ## Fallback Recommender
Embeds _get_fallback_recommendations (src/crew/orchestrator.py). -/

def fallback_movies : List Rec :=
  [[("title", .vstr "Inception"), ("type", .vstr "movie"), ("year", .vstr "2010"),
    ("genre", .vstr "Sci-Fi, Thriller"), ("rating", .vnum (8.8 : ℚ)),
    ("description", .vstr "A thief who steals corporate secrets through dream-sharing technology."),
    ("why_recommended", .vstr "Masterpiece of sci-fi cinema."),
    ("similar_titles", .vlist [.vstr "The Matrix"])],
   [("title", .vstr "The Dark Knight"), ("type", .vstr "movie"), ("year", .vstr "2008"),
    ("genre", .vstr "Action, Crime"), ("rating", .vnum (9.0 : ℚ)),
    ("description", .vstr "Batman sets out to dismantle the remaining criminal organizations."),
    ("why_recommended", .vstr "Defining superhero movie."),
    ("similar_titles", .vlist [.vstr "Batman Begins"])]]

def fallback_books : List Rec :=
  [[("title", .vstr "Project Hail Mary"), ("type", .vstr "book"), ("year", .vstr "2021"),
    ("genre", .vstr "Sci-Fi"), ("rating", .vnum (4.8 : ℚ)),
    ("description", .vstr "A lone astronaut must save the earth."),
    ("why_recommended", .vstr "Engaging hard sci-fi."),
    ("similar_titles", .vlist [.vstr "The Martian"])],
   [("title", .vstr "Dune"), ("type", .vstr "book"), ("year", .vstr "1965"),
    ("genre", .vstr "Sci-Fi"), ("rating", .vnum (4.7 : ℚ)),
    ("description", .vstr "The story of Paul Atreides."),
    ("why_recommended", .vstr "Epic masterpiece."),
    ("similar_titles", .vlist [.vstr "Foundation"])]]

def fallback_tv : List Rec :=
  [[("title", .vstr "Breaking Bad"), ("type", .vstr "tv"), ("year", .vstr "2008"),
    ("genre", .vstr "Crime, Drama"), ("rating", .vnum (9.5 : ℚ)),
    ("description", .vstr "A high school chemistry teacher turned manufacturing drug dealer."),
    ("why_recommended", .vstr "Widely considered one of the best shows ever made."),
    ("similar_titles", .vlist [.vstr "Better Call Saul", .vstr "Ozark"])],
   [("title", .vstr "Stranger Things"), ("type", .vstr "tv"), ("year", .vstr "2016"),
    ("genre", .vstr "Sci-Fi, Horror"), ("rating", .vnum (8.7 : ℚ)),
    ("description", .vstr "When a young boy vanishes, a small town uncovers a mystery."),
    ("why_recommended", .vstr "Nostalgic and thrilling."),
    ("similar_titles", .vlist [.vstr "Dark", .vstr "The OA"])]]

/-- Model of _get_fallback_recommendations: the curated list for the media type
(movie when the type is unknown), truncated to three records.  The user
request argument is only logged. -/
def fallback_recommendations (_user_request media_type : String) : List PyVal :=
  ((if media_type = "movie" then fallback_movies
    else if media_type = "book" then fallback_books
    else if media_type = "tv" then fallback_tv
    else fallback_movies).take 3).map .vdict

/-! ## Rating enrichment
Embeds _enrich_ratings (src/crew/orchestrator.py).  The network-backed
_fetch_rating_for_rec call is an external effect and is modelled by the
fetch parameter. -/

/-- The sentinel test of _enrich_ratings: rec.get(rating) in
(None, empty, N/A, Unknown); an absent key reads as None. -/
def ratingSentinel : Option PyVal → Bool
  | none => true
  | some .vnull => true
  | some (.vstr s) => s = "" || s = "N/A" || s = "Unknown"
  | some _ => false

/-- Per-record enrichment body: a record whose rating is not a sentinel is
skipped; otherwise the fetched rating is stored, or the sentinel string when
the fetch yields nothing. -/
def enrich_rec (fetch : Rec → Option ℚ) (fs : Rec) : Rec :=
  if ratingSentinel (alget fs "rating") then
    match fetch fs with
    | some q => alset fs "rating" (.vnum q)
    | none => alset fs "rating" (.vstr "N/A")
  else fs

/-- Model of _enrich_ratings: each dict element is enriched in place; on a non-dict
element the attribute access raises inside the loop, the handler of the
per-record except clause raises again on item assignment, and the loop is
abandoned, leaving that element and the remaining ones untouched (the caller
catches the exception). -/
def enrich_ratings (fetch : Rec → Option ℚ) : List PyVal → List PyVal
  | [] => []
  | .vdict fs :: rest => .vdict (enrich_rec fetch fs) :: enrich_ratings fetch rest
  | v :: rest => v :: rest

/-! ## The run entry point
Embeds MediaRecommendationCrew.run, _validate_inputs, _process_crew_result
and _execute_crew_with_timeout (src/crew/orchestrator.py). -/

/-- Model of _validate_inputs: returns the message of the ValueError it raises, or
none when the inputs are accepted. -/
def validate_inputs (user_request media_type : String) (num_recommendations : ℤ) :
    Option String :=
  if user_request = "" ∨ pyStrip user_request = "" then
    some "User request cannot be empty"
  else if ¬ (media_type = "movie" ∨ media_type = "book" ∨ media_type = "tv") then
    some "Media type must be one of movie, book, tv"
  else if ¬ (1 ≤ num_recommendations ∧ num_recommendations ≤ 10) then
    some "Number of recommendations must be between 1 and 10"
  else none

/-- Model of _process_crew_result: parse (None coalesces to the empty list), fall
back when nothing was parsed, otherwise enrich in place and return the
list (failures of enrichment and of the logging-only validation pass are
caught and ignored). -/
def process_crew_result (fetch : Rec → Option ℚ) (res : CrewResult)
    (user_request media_type : String) : List PyVal :=
  let recs := (parse_result res).getD []
  if recs.isEmpty then fallback_recommendations user_request media_type
  else enrich_ratings fetch recs

/-- What the crew.kickoff call does on this request: produce a raw result or
raise.  This is the external LLM pipeline, a parameter of the model. -/
inductive PipelineOutcome where
  | ok (res : CrewResult)
  | exn

/-- The transient per-call attributes of the orchestrator object touched by
run: the stored current media type and the stored current user request.
none models an absent (deleted) attribute. -/
structure OrchState where
  current_media_type : Option String
  current_user_request : Option String

/-- What run delivers to its caller: a returned list or a raised
exception. -/
inductive RunOutcome where
  | returned (recs : List PyVal)
  | raised (msg : String)

/-- MediaRecommendationCrew.run: the whole body, validation included, sits
in one try block whose blanket except handler returns the fallback list;
the finally block deletes only the stored media type attribute (the stored
user request attribute survives the call).  The first component is what the
caller receives, the second the attribute state after the call. -/
def run (fetch : Rec → Option ℚ) (s : OrchState) (user_request media_type : String)
    (num_recommendations : ℤ) (p : PipelineOutcome) : RunOutcome × OrchState :=
  match validate_inputs user_request media_type num_recommendations with
  | some _ =>
      (.returned (fallback_recommendations user_request media_type),
       { s with current_media_type := none })
  | none =>
      let out : RunOutcome :=
        match p with
        | .exn => .returned (fallback_recommendations user_request media_type)
        | .ok res => .returned (process_crew_result fetch res user_request media_type)
      (out, { current_media_type := none, current_user_request := some user_request })

/-- Wall-clock model of run: crew.kickoff is invoked synchronously on the
calling thread (the source comment explains Streamlit callbacks are
thread-local), so a validated call lasts as long as the pipeline runs, with
no deadline.  Validation failures return before any pipeline work. -/
def run_elapsed (user_request media_type : String) (num_recommendations : ℤ)
    (pipeline_duration : ℕ) : ℕ :=
  if (validate_inputs user_request media_type num_recommendations).isSome then 0
  else pipeline_duration

/-- Model of _execute_crew_with_timeout (not called by run): submit kickoff to a
one-slot pool and wait with a deadline; a pipeline that outlasts the
deadline yields a TimeoutError, a pipeline exception is caught, and both
produce None (the helper default deadline in the source is 120 seconds). -/
def execute_crew_with_timeout (timeout pipeline_duration : ℕ) (p : PipelineOutcome) :
    Option CrewResult :=
  if timeout < pipeline_duration then none
  else
    match p with
    | .ok res => some res
    | .exn => none

/-! ## Fast-Path Classifier
Embeds _check_fast_path (src/crew/orchestrator.py). -/

/-- The closed genre vocabulary, in the alternation order of the source
regex. -/
def genre_vocab : List String :=
  ["action", "adventure", "animation", "comedy", "crime", "documentary",
   "drama", "family", "fantasy", "history", "horror", "music", "mystery",
   "romance", "sci-fi", "sci fi", "science fiction", "thriller", "war",
   "western"]

/-- The media-kind suffix words, per type, in source order. -/
def type_suffix_words : List (String × List String) :=
  [("movie", ["movie", "movies"]),
   ("book", ["book", "books"]),
   ("tv", ["tv", "show", "shows", "series"])]

/-- The suffix of the fast-path grammar: one or more whitespace characters
followed exactly by one of the suffix words at the end of the request. -/
def suffix_match (cs : List Char) (words : List String) : Bool :=
  match cs with
  | [] => false
  | c :: rest =>
      pyIsSpace c && words.any (fun w => rest.dropWhile pyIsSpace = w.toList)

/-- Model of _check_fast_path: the request is lowered and stripped, then matched
against genre-plus-suffix per media type in source order; the sci fi
spelling is canonicalized.  Returns the media type and genre on a match. -/
def check_fast_path (user_request : String) : Option (String × String) :=
  let req := (pyStrip (pyLower user_request)).toList
  type_suffix_words.findSome? (fun tw =>
    (genre_vocab.findSome? (fun g =>
      if g.toList.isPrefixOf req && suffix_match (req.drop g.toList.length) tw.2
      then some g else none)).map
      (fun g => (tw.1, if g = "sci fi" then "sci-fi" else g)))

/-! ## Persistent TTL Cache
Embeds PersistentCacheManager (src/cache_manager.py).  Wall-clock readings
(time.time()) are passed explicitly; the on-disk file is a state
component. -/

/-- The state of one PersistentCacheManager: the in-memory map from key to
(timestamp, value), the dirty flag, the time of the last flush, and the
serialized map on disk. -/
structure CacheState where
  cache : List (String × (ℚ × PyVal))
  dirty : Bool
  last_save_time : ℚ
  disk : List (String × (ℚ × PyVal))

/-- A manager over a fresh (absent) cache file: _load_from_disk creates the
empty file eagerly. -/
def cache_init : CacheState :=
  { cache := [], dirty := false, last_save_time := 0, disk := [] }

/-- Model of _save_to_disk: within the debounce window an unforced save only marks
the cache dirty; otherwise the map is serialized, the flush time recorded
and the dirty flag cleared. -/
def save_to_disk (st : CacheState) (now : ℚ) (force : Bool) : CacheState :=
  if !force && now - st.last_save_time < 1 then
    { st with dirty := true }
  else
    { st with disk := st.cache, last_save_time := now, dirty := false }

/-- PersistentCacheManager.get: a missing key reads as absent; a present
entry older than the supplied ttl is evicted, the dirty flag set and absent
returned; otherwise the stored value is returned.  ttl none skips the
expiry check. -/
def cache_get (st : CacheState) (now : ℚ) (key : String) (ttl : Option ℚ) :
    Option PyVal × CacheState :=
  match alget st.cache key with
  | none => (none, st)
  | some (cache_time, value) =>
      match ttl with
      | some t =>
          if now - cache_time ≥ t then
            (none, { st with cache := alerase st.cache key, dirty := true })
          else (some value, st)
      | none => (some value, st)

/-- PersistentCacheManager.set: store (now, value) under the key and force
an immediate flush. -/
def cache_set (st : CacheState) (now : ℚ) (key : String) (value : PyVal) :
    CacheState :=
  save_to_disk { st with cache := alset st.cache key (now, value) } now true

/-- The total_entries field of get_stats. -/
def cache_total_entries (st : CacheState) : ℕ :=
  st.cache.length

/-! ## Supporting lemmas for the claim theorems -/

theorem cache_set_cache (st : CacheState) (now : ℚ) (k : String) (v : PyVal) :
    (cache_set st now k v).cache = alset st.cache k (now, v) := by
  unfold cache_set save_to_disk
  split <;> rfl

theorem fallback_recommendations_ne_nil (u m : String) :
    fallback_recommendations u m ≠ [] := by
  unfold fallback_recommendations
  split_ifs <;> simp [fallback_movies, fallback_books, fallback_tv]

theorem enrich_ratings_ne_nil (fetch : Rec → Option ℚ) (l : List PyVal)
    (h : l ≠ []) : enrich_ratings fetch l ≠ [] := by
  cases l with
  | nil => exact absurd rfl h
  | cons v t => cases v <;> simp [enrich_ratings]

/-- A record whose title reads back as a truthy value. -/
def titleTruthy (r : Rec) : Prop :=
  ∃ t, alget r "title" = some t ∧ pyTruthy t = true

theorem titleTruthy_of_valid (r : Rec) (h : is_valid_recommendation r = true) :
    titleTruthy r := by
  unfold is_valid_recommendation at h
  cases ht : alget r "title" with
  | none => rw [ht] at h; simp at h
  | some v =>
      rw [ht] at h
      exact ⟨v, ht, by simpa using h⟩

theorem keepItem_shape (v : PyVal) (h : keepItem v = true) :
    ∃ fs, v = .vdict fs ∧ titleTruthy fs := by
  unfold keepItem at h
  cases v with
  | vdict fs =>
      refine ⟨fs, rfl, ?_⟩
      dsimp only at h
      cases ht : alget fs "title" with
      | none => rw [ht] at h; simp at h
      | some t =>
          rw [ht] at h
          exact ⟨t, ht, by simpa using h⟩
  | vstr s => cases h
  | vnum q => cases h
  | vbool b => cases h
  | vnull => cases h
  | vlist xs => cases h

theorem alget_ppr_title (r : Rec) :
    alget (post_process_rec r) "title" = alget r "title" := by
  unfold post_process_rec
  rw [alget_normalize_ne _ (by decide : ("title" : String) ≠ "rating"),
      alget_fix_year_ne _ (by decide : ("title" : String) ≠ "year"),
      alget_apply_defaults_other r (by decide) (by decide) (by decide)
        (by decide) (by decide) (by decide) (by decide)]

theorem titleTruthy_post_process_rec (r : Rec) (h : titleTruthy r) :
    titleTruthy (post_process_rec r) := by
  obtain ⟨t, ht, htt⟩ := h
  exact ⟨t, by rw [alget_ppr_title, ht], htt⟩

theorem scan_lines_title (lines : List String) (acc : List Rec) (cur : Rec)
    (hacc : ∀ r ∈ acc, titleTruthy r) :
    ∀ r ∈ scan_lines lines acc cur, titleTruthy r := by
  induction lines generalizing acc cur with
  | nil =>
      intro r hr
      unfold scan_lines at hr
      split at hr
      · rename_i hcond
        rcases List.mem_append.mp hr with h | h
        · exact hacc r h
        · rw [List.mem_singleton] at h
          subst h
          simp only [Bool.and_eq_true] at hcond
          exact titleTruthy_of_valid r hcond.2
      · exact hacc r hr
  | cons line rest ih =>
      intro r hr
      unfold scan_lines at hr
      split at hr
      · exact ih acc cur hacc r hr
      · split at hr
        · rename_i hcond
          simp only [Bool.and_eq_true] at hcond
          refine ih _ _ ?_ r hr
          intro r2 hr2
          rcases List.mem_append.mp hr2 with h | h
          · exact hacc r2 h
          · rw [List.mem_singleton] at h
            subst h
            exact titleTruthy_of_valid r2 hcond.2
        · exact ih acc _ hacc r hr

/-- A rating field that is absent or holds a string, the shape every record
built by the structured-text line scanner has. -/
def ratingStrOrAbsent (r : Rec) : Prop :=
  alget r "rating" = none ∨ ∃ s, alget r "rating" = some (.vstr s)

theorem ratingStrOrAbsent_nil : ratingStrOrAbsent [] :=
  Or.inl rfl

theorem ratingStrOrAbsent_extract_field (line : String) (r : Rec)
    (h : ratingStrOrAbsent r) : ratingStrOrAbsent (extract_field line r) := by
  unfold extract_field
  cases hf : field_patterns.find?
      (fun fp => fp.2.any (fun p => strContains (pyLower line) p)) with
  | none => exact h
  | some fp =>
      dsimp only
      by_cases hk : fp.1 = "rating"
      · right
        rw [hk]
        exact ⟨_, alget_alset_self r "rating" _⟩
      · have hne : ("rating" : String) ≠ fp.1 := fun hh => hk hh.symm
        rcases h with h | ⟨s, h⟩
        · left
          rw [alget_alset_ne r _ hne, h]
        · right
          exact ⟨s, by rw [alget_alset_ne r _ hne, h]⟩

theorem scan_lines_rating (lines : List String) (acc : List Rec) (cur : Rec)
    (hacc : ∀ r ∈ acc, ratingStrOrAbsent r) (hcur : ratingStrOrAbsent cur) :
    ∀ r ∈ scan_lines lines acc cur, ratingStrOrAbsent r := by
  induction lines generalizing acc cur with
  | nil =>
      intro r hr
      unfold scan_lines at hr
      split at hr
      · rcases List.mem_append.mp hr with h | h
        · exact hacc r h
        · rw [List.mem_singleton] at h
          subst h
          exact hcur
      · exact hacc r hr
  | cons line rest ih =>
      intro r hr
      unfold scan_lines at hr
      split at hr
      · exact ih acc cur hacc hcur r hr
      · split at hr
        · refine ih _ _ ?_ (ratingStrOrAbsent_extract_field _ _ ratingStrOrAbsent_nil) r hr
          intro r2 hr2
          rcases List.mem_append.mp hr2 with h | h
          · exact hacc r2 h
          · rw [List.mem_singleton] at h
            subst h
            exact hcur
        · exact ih acc _ hacc (ratingStrOrAbsent_extract_field _ _ hcur) r hr

/-! ## Claim theorems -/

/-- C9: running the Recommendation Post-Processor a second time on its own
output yields the same result as running it once, for every list of
records. -/
theorem post_process_idempotent (rs : List Rec) :
    post_process (post_process rs) = post_process rs := by
  induction rs with
  | nil => rfl
  | cons r t ih =>
      show post_process_rec (post_process_rec r) :: post_process (post_process t)
          = post_process_rec r :: post_process t
      rw [post_process_rec_idem, ih]

/-- C7: for every key and value, set(k, v) on the Persistent TTL Cache
followed immediately by get(k, ttl) with any positive ttl returns the value
unchanged. -/
theorem cache_set_get_roundtrip (st : CacheState) (now : ℚ) (k : String)
    (v : PyVal) (ttl : ℚ) (h : 0 < ttl) :
    (cache_get (cache_set st now k v) now k (some ttl)).1 = some v := by
  unfold cache_get
  rw [cache_set_cache, alget_alset_self]
  dsimp only
  rw [if_neg (show ¬ now - now ≥ ttl by rw [sub_self]; exact not_le.mpr h)]

/-- C7 witness: a concrete round trip through the cache. -/
theorem cache_set_get_roundtrip_witness :
    (0 : ℚ) < 5 ∧
    (cache_get (cache_set cache_init 0 "k" (.vstr "x")) 0 "k" (some 5)).1
      = some (.vstr "x") :=
  ⟨by norm_num, cache_set_get_roundtrip cache_init 0 "k" (.vstr "x") 5 (by norm_num)⟩

/-- C8: a cache entry whose age reaches the ttl reads as absent; the read
evicts it (it stops counting in the stats and no longer resolves), and the
dirty flag is set. -/
theorem cache_get_expiry_evicts (st : CacheState) (now : ℚ) (k : String)
    (ts : ℚ) (v : PyVal) (ttl : ℚ)
    (hnd : (st.cache.map Prod.fst).Nodup)
    (hk : alget st.cache k = some (ts, v))
    (hexp : now - ts ≥ ttl) :
    (cache_get st now k (some ttl)).1 = none ∧
    alget (cache_get st now k (some ttl)).2.cache k = none ∧
    (cache_get st now k (some ttl)).2.dirty = true ∧
    cache_total_entries (cache_get st now k (some ttl)).2 + 1
      = cache_total_entries st := by
  unfold cache_get
  rw [hk]
  dsimp only
  rw [if_pos hexp]
  refine ⟨rfl, ?_, rfl, ?_⟩
  · exact alget_alerase_of_nodup hnd (by rw [hk]; rfl)
  · exact length_alerase_of_isSome (by rw [hk]; rfl)

/-- C8 witness: a concrete entry written at time 0 and read at time 5 with
ttl 3 is evicted. -/
theorem cache_get_expiry_evicts_witness :
    (((cache_set cache_init 0 "k" (.vstr "x")).cache.map Prod.fst).Nodup ∧
     alget (cache_set cache_init 0 "k" (.vstr "x")).cache "k" = some (0, .vstr "x") ∧
     (5 : ℚ) - 0 ≥ 3) ∧
    ((cache_get (cache_set cache_init 0 "k" (.vstr "x")) 5 "k" (some 3)).1 = none ∧
     alget (cache_get (cache_set cache_init 0 "k" (.vstr "x")) 5 "k" (some 3)).2.cache "k" = none ∧
     (cache_get (cache_set cache_init 0 "k" (.vstr "x")) 5 "k" (some 3)).2.dirty = true ∧
     cache_total_entries (cache_get (cache_set cache_init 0 "k" (.vstr "x")) 5 "k" (some 3)).2 + 1
       = cache_total_entries (cache_set cache_init 0 "k" (.vstr "x"))) :=
  ⟨⟨by simp [cache_set, save_to_disk, cache_init, alset], rfl, by norm_num⟩,
   cache_get_expiry_evicts (cache_set cache_init 0 "k" (.vstr "x")) 5 "k" 0
     (.vstr "x") 3 (by simp [cache_set, save_to_disk, cache_init, alset]) rfl
     (by norm_num)⟩

/-- C1 counterexample: on an empty user request, run does not raise the
invalid-input error to its caller; the validation error is swallowed by the
blanket except handler of run and the fallback list is returned. -/
theorem run_swallows_invalid_input_cex :
    (run (fun _ => none) ⟨none, none⟩ "" "movie" 3 (.ok (.text "anything"))).1
      = .returned (fallback_recommendations "" "movie") := rfl

/-- C1 amended: invalid inputs are detected before any pipeline work (the
result is independent of the pipeline outcome), but the invalid-input error
never reaches the caller: run returns the fallback list instead of
raising. -/
theorem run_invalid_input_returns_fallback (fetch : Rec → Option ℚ)
    (s : OrchState) (u m : String) (n : ℤ) (p p2 : PipelineOutcome)
    (h : (validate_inputs u m n).isSome) :
    (run fetch s u m n p).1 = .returned (fallback_recommendations u m) ∧
    run fetch s u m n p = run fetch s u m n p2 := by
  obtain ⟨msg, hm⟩ := Option.isSome_iff_exists.mp h
  unfold run
  rw [hm]
  exact ⟨rfl, rfl⟩

/-- C1 witness: the amended claim at the empty request. -/
theorem run_invalid_input_returns_fallback_witness :
    (validate_inputs "" "movie" 3).isSome ∧
    ((run (fun _ => none) ⟨none, none⟩ "" "movie" 3 .exn).1
        = .returned (fallback_recommendations "" "movie") ∧
      run (fun _ => none) ⟨none, none⟩ "" "movie" 3 .exn
        = run (fun _ => none) ⟨none, none⟩ "" "movie" 3 (.ok (.text "x"))) :=
  ⟨rfl, run_invalid_input_returns_fallback (fun _ => none) ⟨none, none⟩ "" "movie" 3
      .exn (.ok (.text "x")) rfl⟩

/-- C2: on valid input run always returns a non-empty list and never raises;
a pipeline exception, a result that parses to nothing, and a result that
parses to an empty list all yield the fallback list. -/
theorem run_valid_input_nonempty (fetch : Rec → Option ℚ) (s : OrchState)
    (u m : String) (n : ℤ) (p : PipelineOutcome)
    (h : validate_inputs u m n = none) :
    (∃ recs, (run fetch s u m n p).1 = .returned recs ∧ recs ≠ []) ∧
    (run fetch s u m n .exn).1 = .returned (fallback_recommendations u m) ∧
    (∀ res, parse_result res = none →
      (run fetch s u m n (.ok res)).1 = .returned (fallback_recommendations u m)) ∧
    (∀ res, parse_result res = some [] →
      (run fetch s u m n (.ok res)).1 = .returned (fallback_recommendations u m)) := by
  refine ⟨?_, ?_, ?_, ?_⟩
  · unfold run
    rw [h]
    cases p with
    | exn => exact ⟨_, rfl, fallback_recommendations_ne_nil u m⟩
    | ok res =>
        dsimp only
        unfold process_crew_result
        cases hr : (parse_result res).getD [] with
        | nil =>
            refine ⟨fallback_recommendations u m, ?_, fallback_recommendations_ne_nil u m⟩
            rfl
        | cons a t =>
            refine ⟨enrich_ratings fetch (a :: t), ?_,
              enrich_ratings_ne_nil fetch _ (List.cons_ne_nil a t)⟩
            rfl
  · unfold run
    rw [h]
  · intro res hres
    unfold run
    rw [h]
    dsimp only
    unfold process_crew_result
    rw [hres]
    rfl
  · intro res hres
    unfold run
    rw [h]
    dsimp only
    unfold process_crew_result
    rw [hres]
    rfl

/-- C2 witness: the guarantee at a concrete valid input with a failing
pipeline. -/
theorem run_valid_input_nonempty_witness :
    validate_inputs "comedy movies" "movie" 3 = none ∧
    ((∃ recs, (run (fun _ => none) ⟨none, none⟩ "comedy movies" "movie" 3 .exn).1
          = .returned recs ∧ recs ≠ []) ∧
      (run (fun _ => none) ⟨none, none⟩ "comedy movies" "movie" 3 .exn).1
        = .returned (fallback_recommendations "comedy movies" "movie") ∧
      (∀ res, parse_result res = none →
        (run (fun _ => none) ⟨none, none⟩ "comedy movies" "movie" 3 (.ok res)).1
          = .returned (fallback_recommendations "comedy movies" "movie")) ∧
      (∀ res, parse_result res = some [] →
        (run (fun _ => none) ⟨none, none⟩ "comedy movies" "movie" 3 (.ok res)).1
          = .returned (fallback_recommendations "comedy movies" "movie"))) :=
  ⟨rfl, run_valid_input_nonempty (fun _ => none) ⟨none, none⟩ "comedy movies"
      "movie" 3 .exn rfl⟩

/-- C3 counterexample: run has no wall-clock deadline.  A pipeline that
takes 1000 seconds (beyond the canonical 600-second timeout) and then
produces a good result makes run last the full 1000 seconds and return the
parsed result, not the fallback list. -/
theorem run_no_timeout_cex :
    (run (fun _ => none) ⟨none, none⟩ "comedy movies" "movie" 3
        (.ok (.text "[\x7b\"title\": \"Heat\"\x7d]"))).1
      = .returned [.vdict [("title", .vstr "Heat"), ("rating", .vstr "N/A")]] ∧
    (run (fun _ => none) ⟨none, none⟩ "comedy movies" "movie" 3
        (.ok (.text "[\x7b\"title\": \"Heat\"\x7d]"))).1
      ≠ .returned (fallback_recommendations "comedy movies" "movie") ∧
    run_elapsed "comedy movies" "movie" 3 1000 = 1000 ∧ 600 < 1000 := by
  refine ⟨rfl, ?_, rfl, by norm_num⟩
  intro heq
  rw [show (run (fun _ => none) ⟨none, none⟩ "comedy movies" "movie" 3
        (.ok (.text "[\x7b\"title\": \"Heat\"\x7d]"))).1
      = .returned [.vdict [("title", .vstr "Heat"), ("rating", .vstr "N/A")]] from rfl]
    at heq
  have hlen : ([.vdict [("title", .vstr "Heat"), ("rating", .vstr "N/A")]] : List PyVal).length
      = (fallback_recommendations "comedy movies" "movie").length := by
    injection heq with h2
    rw [h2]
  simp [fallback_recommendations, fallback_movies] at hlen

/-- C3 amended: the helper _execute_crew_with_timeout does bound the wait
and reports a timed-out run as an absent result, which the result processor
turns into the fallback list; but run itself invokes the pipeline with no
deadline, so a validated call lasts as long as the pipeline does. -/
theorem timeout_helper_returns_none (t d : ℕ) (p : PipelineOutcome)
    (u m : String) (n : ℤ) (fetch : Rec → Option ℚ)
    (ht : t < d) (hv : validate_inputs u m n = none) :
    execute_crew_with_timeout t d p = none ∧
    run_elapsed u m n d = d ∧
    process_crew_result fetch (.text "None") u m = fallback_recommendations u m := by
  refine ⟨?_, ?_, ?_⟩
  · unfold execute_crew_with_timeout
    rw [if_pos ht]
  · unfold run_elapsed
    rw [hv]
    rfl
  · unfold process_crew_result
    rw [show parse_result (.text "None") = none from rfl]
    rfl

/-- C3 witness: the amended claim at the helper default deadline of 120
seconds and a 1000-second pipeline. -/
theorem timeout_helper_returns_none_witness :
    (120 < 1000 ∧ validate_inputs "comedy movies" "movie" 3 = none) ∧
    (execute_crew_with_timeout 120 1000 .exn = none ∧
      run_elapsed "comedy movies" "movie" 3 1000 = 1000 ∧
      process_crew_result (fun _ => none) (.text "None") "comedy movies" "movie"
        = fallback_recommendations "comedy movies" "movie") :=
  ⟨⟨by norm_num, rfl⟩,
   timeout_helper_returns_none 120 1000 .exn "comedy movies" "movie" 3
     (fun _ => none) (by norm_num) rfl⟩

/-- C10 counterexample: after a successful run the stored current media type
is cleared but the stored current user request is not; it still holds the
request. -/
theorem run_leaves_user_request_cex :
    (run (fun _ => none) ⟨none, none⟩ "action movies" "movie" 3 (.ok (.text "x"))).2.current_user_request
      = some "action movies" ∧
    (run (fun _ => none) ⟨none, none⟩ "action movies" "movie" 3 (.ok (.text "x"))).2.current_media_type
      = none := ⟨rfl, rfl⟩

/-- C10 amended: the finally block of run deletes only the stored media type
attribute; on every validated call the stored user request attribute is set
to the request and survives the call, and on an invalid call it is left as
it was. -/
theorem run_clears_media_type_only (fetch : Rec → Option ℚ) (s : OrchState)
    (u m : String) (n : ℤ) (p : PipelineOutcome) :
    (run fetch s u m n p).2.current_media_type = none ∧
    (validate_inputs u m n = none →
      (run fetch s u m n p).2.current_user_request = some u) ∧
    ((validate_inputs u m n).isSome →
      (run fetch s u m n p).2.current_user_request = s.current_user_request) := by
  cases hv : validate_inputs u m n with
  | some msg =>
      unfold run
      rw [hv]
      exact ⟨rfl, fun h => Option.noConfusion h, fun _ => rfl⟩
  | none =>
      unfold run
      rw [hv]
      exact ⟨rfl, fun _ => rfl, fun h => absurd h (by simp)⟩

/-- C10 witness: the amended claim at a concrete validated call. -/
theorem run_clears_media_type_only_witness :
    (run (fun _ => none) ⟨some "movie", some "old"⟩ "action movies" "movie" 3 .exn).2.current_media_type
      = none ∧
    validate_inputs "action movies" "movie" 3 = none ∧
    (run (fun _ => none) ⟨some "movie", some "old"⟩ "action movies" "movie" 3 .exn).2.current_user_request
      = some "action movies" :=
  ⟨(run_clears_media_type_only (fun _ => none) ⟨some "movie", some "old"⟩
      "action movies" "movie" 3 .exn).1, rfl,
   (run_clears_media_type_only (fun _ => none) ⟨some "movie", some "old"⟩
      "action movies" "movie" 3 .exn).2.1 rfl⟩

/-- C4 counterexample: a record produced by the JSON-extraction stage is
returned by the Result Parser without post-processing, so its rating is the
bare string with a slash, neither a rounded number nor the sentinel. -/
theorem json_stage_bare_string_rating_cex :
    parse_result (.text "Result: [\x7b\"title\": \"Inception\", \"rating\": \"8.5/10\"\x7d]")
      = some [.vdict [("title", .vstr "Inception"), ("rating", .vstr "8.5/10")]] := rfl

/-- C4 amended: records produced by the structured-text stage do pass
through the Post-Processor, so their rating is a number rounded to one
decimal or the sentinel; the JSON-extraction stage and the list passthrough
skip post-processing. -/
theorem structured_stage_rating_normalized (s : String) (r : Rec)
    (h : r ∈ parse_structured_text s) :
    ∃ v, alget r "rating" = some v ∧ normalizedRating v := by
  unfold parse_structured_text post_process at h
  obtain ⟨r0, hr0, rfl⟩ := List.mem_map.mp h
  exact ratingNormalized_post_process_rec r0
    (scan_lines_rating (pySplitLines s) [] []
      (fun r hr => absurd hr (List.not_mem_nil r)) ratingStrOrAbsent_nil r0 hr0)

/-- The record the structured-text stage produces for a single title line
(all other fields defaulted, the rating sentinel untouched by
normalization). -/
def example_rec_heat : Rec :=
  [("title", .vstr "Heat"), ("rating", .vstr "N/A"),
   ("similar_titles", .vlist []),
   ("description", .vstr "No description available"),
   ("why_recommended", .vstr "Matches your preferences"),
   ("image_url", .vnull), ("trailer_url", .vnull),
   ("type", .vstr "unknown")]

/-- C4 witness: the amended claim at a concrete structured text. -/
theorem structured_stage_rating_normalized_witness :
    parse_structured_text "Title: Heat" = [example_rec_heat] ∧
    (∃ v, alget example_rec_heat "rating" = some v ∧ normalizedRating v) :=
  ⟨rfl, structured_stage_rating_normalized "Title: Heat" example_rec_heat
      (by rw [show parse_structured_text "Title: Heat" = [example_rec_heat] from rfl]
          exact List.mem_singleton_self _)⟩

/-- C5 counterexample: the request of the sci fi genre with the book suffix
IS matched by the fast-path classifier (the claim states it is not),
yielding the book type with the canonicalized genre. -/
theorem fast_path_sci_fi_books_cex :
    check_fast_path "sci fi books" = some ("book", "sci-fi") := rfl

/-- C5 amended: the fast-path classifier matches the grammar of genre,
whitespace and media-kind suffix over the closed vocabulary; the action
movies request maps to the movie type with the action genre, the sci fi
books request maps to the book type with the canonicalized sci-fi genre,
and a request with surrounding words does not match. -/
theorem fast_path_grammar_examples :
    check_fast_path "action movies" = some ("movie", "action") ∧
    check_fast_path "sci fi books" = some ("book", "sci-fi") ∧
    check_fast_path "give me an action movie please" = none :=
  ⟨rfl, rfl, rfl⟩

/-- C6 counterexample: when the raw pipeline output is already a Python
list, the Result Parser returns it unchanged; a record with no title at all
survives to the caller. -/
theorem list_passthrough_keeps_titleless_cex :
    parse_result (.pyList [.vdict [("rating", .vnum 5)]])
      = some [.vdict [("rating", .vnum 5)]] ∧
    alget ([("rating", PyVal.vnum 5)] : Rec) "title" = none :=
  ⟨rfl, rfl⟩

/-- C6 amended: every record the Result Parser builds from textual pipeline
output (JSON-extraction stage or structured-text stage) is a dict with a
truthy title, and every Fallback Recommender record carries a non-empty
string title; only the list passthrough can deliver title-less records. -/
theorem parser_text_and_fallback_title_invariant :
    (∀ s l, parse_result (.text s) = some l →
      ∀ v ∈ l, ∃ fs, v = .vdict fs ∧ titleTruthy fs) ∧
    (∀ u m, ∀ v ∈ fallback_recommendations u m,
      ∃ fs, v = .vdict fs ∧ ∃ t, alget fs "title" = some (.vstr t) ∧ t ≠ "") := by
  constructor
  · intro s l hl v hv
    unfold parse_result at hl
    dsimp only at hl
    cases hx : extract_json_from_text s with
    | some js =>
        rw [hx] at hl
        dsimp only at hl
        unfold parse_json_safely at hl
        cases hj : json_loads js with
        | none => rw [hj] at hl; exact Option.noConfusion hl
        | some jv =>
            rw [hj] at hl
            cases jv with
            | vlist items =>
                dsimp only at hl
                split at hl
                · exact Option.noConfusion hl
                · have h2 : items.filter keepItem = l := by injection hl
                  subst h2
                  exact keepItem_shape v (List.of_mem_filter hv)
            | vstr s2 => exact Option.noConfusion hl
            | vnum q => exact Option.noConfusion hl
            | vbool b => exact Option.noConfusion hl
            | vnull => exact Option.noConfusion hl
            | vdict fs => exact Option.noConfusion hl
    | none =>
        rw [hx] at hl
        dsimp only at hl
        split at hl
        · exact Option.noConfusion hl
        · have h2 : (parse_structured_text s).map .vdict = l := by injection hl
          subst h2
          obtain ⟨r0, hr0, rfl⟩ := List.mem_map.mp hv
          refine ⟨r0, rfl, ?_⟩
          unfold parse_structured_text post_process at hr0
          obtain ⟨r1, hr1, rfl⟩ := List.mem_map.mp hr0
          exact titleTruthy_post_process_rec r1
            (scan_lines_title (pySplitLines s) [] []
              (fun r hr => absurd hr (List.not_mem_nil r)) r1 hr1)
  · intro u m v hv
    unfold fallback_recommendations at hv
    split_ifs at hv <;> simp [fallback_movies, fallback_books, fallback_tv] at hv <;>
      rcases hv with rfl | rfl <;> exact ⟨_, rfl, _, rfl, by decide⟩

/-- The record the structured-text stage produces for a single Dune title
line. -/
def example_rec_dune : Rec :=
  [("title", .vstr "Dune"), ("rating", .vstr "N/A"),
   ("similar_titles", .vlist []),
   ("description", .vstr "No description available"),
   ("why_recommended", .vstr "Matches your preferences"),
   ("image_url", .vnull), ("trailer_url", .vnull),
   ("type", .vstr "unknown")]

/-- C6 witness: the amended claim at a concrete textual pipeline output. -/
theorem parser_text_and_fallback_title_invariant_witness :
    parse_result (.text "Title: Dune") = some [.vdict example_rec_dune] ∧
    (∃ fs, (PyVal.vdict example_rec_dune) = .vdict fs ∧ titleTruthy fs) :=
  ⟨rfl, parser_text_and_fallback_title_invariant.1 "Title: Dune"
      [.vdict example_rec_dune] rfl _ (List.mem_singleton_self _)⟩

end MediaCrew
